import Mathlib

/-!
Shallow embedding of the bscpeer crate (reth-p2p-poc): the BSC handshake
capability-extension codec and negotiator (src/crates/bscpeer/src/handshake.rs)
and the block synchronization state tracker
(src/crates/bscpeer/src/peer/blockstate.rs).

Bytes are modelled as natural numbers (each value below 256 on real inputs);
buffers are lists of bytes consumed from the front, mirroring the Rust
`&mut &[u8]` cursors of alloy_rlp. Fallible decoding returns `Except`;
the one place the Rust code can panic (`bytes::Buf::advance` past the end
of the slice) is modelled by a dedicated `panic` outcome.
-/

/-- Errors of the alloy_rlp decoding path reachable from this crate. -/
inductive RlpErr where
  | inputTooShort
  | nonCanonicalSingleByte
  | nonCanonicalSize
  | leadingZero
  | overflow
  | unexpectedString
  | unexpectedList
  | listLengthMismatch
  | custom (msg : String)
deriving DecidableEq, Repr

/-- An RLP item header: whether the item is a list, and its payload length.
Mirrors `alloy_rlp::Header`. -/
structure RlpHeader where
  isList : Bool
  payloadLength : Nat
deriving DecidableEq, Repr

/-- The long-length branch of `alloy_rlp::Header::decode` (initial bytes
0xB8..=0xBF and 0xF8..=0xFF): reads `lenOfLen` big-endian length bytes,
rejects a leading zero and a non-canonical (< 56) size, and checks that the
remaining buffer holds the payload. -/
def headerDecodeLong (isList : Bool) (lenOfLen : Nat) (rest : List Nat) :
    Except RlpErr (RlpHeader × List Nat) :=
  if rest.length < lenOfLen then .error .inputTooShort
  else
    let lenBytes := rest.take lenOfLen
    let rest2 := rest.drop lenOfLen
    if lenBytes.head? == some 0 then .error .leadingZero
    else
      let pl := lenBytes.foldl (fun a x => a * 256 + x) 0
      if pl < 56 then .error .nonCanonicalSize
      else if rest2.length < pl then .error .inputTooShort
      else .ok (⟨isList, pl⟩, rest2)

/-- `alloy_rlp::Header::decode` on a front-consumed buffer. Returns the header
and the buffer positioned at the payload. In the single-byte case
(first byte <= 0x7F) the byte itself is the payload, so the buffer is not
advanced; every branch ends with the `remaining < payload_length` check of the
Rust source (where it is not already implied). -/
def headerDecode : List Nat → Except RlpErr (RlpHeader × List Nat)
  | [] => .error .inputTooShort
  | b :: rest =>
    if b ≤ 0x7f then
      .ok (⟨false, 1⟩, b :: rest)
    else if b ≤ 0xb7 then
      let pl := b - 0x80
      if pl == 1 then
        match rest with
        | [] => .error .inputTooShort
        | c :: rest2 =>
          if c < 0x80 then .error .nonCanonicalSingleByte
          else .ok (⟨false, 1⟩, c :: rest2)
      else if rest.length < pl then .error .inputTooShort
      else .ok (⟨false, pl⟩, rest)
    else if b ≤ 0xbf then
      headerDecodeLong false (b - 0xb7) rest
    else if b ≤ 0xf7 then
      let pl := b - 0xc0
      if rest.length < pl then .error .inputTooShort
      else .ok (⟨true, pl⟩, rest)
    else
      headerDecodeLong true (b - 0xf7) rest

/-- `impl Decodable for u8` of alloy_rlp: decode a string header, then
left-pad the payload to one byte (`static_left_pad::<1>`), rejecting an
oversize payload and a leading zero. Returns the value and the rest of the
buffer. -/
def u8Decode (buf : List Nat) : Except RlpErr (Nat × List Nat) := do
  let (h, b1) ← headerDecode buf
  if h.isList then .error .unexpectedList
  else if 1 < h.payloadLength then .error .overflow
  else
    match b1.take h.payloadLength with
    | [] => .ok (0, b1.drop h.payloadLength)
    | b :: _ =>
      if b == 0 then .error .leadingZero
      else .ok (b, b1.drop h.payloadLength)

/-- `impl Decodable for bool` of alloy_rlp: decode a u8 and accept only
0 (false) and 1 (true). -/
def boolDecode (buf : List Nat) : Except RlpErr (Bool × List Nat) := do
  let (v, rest) ← u8Decode buf
  match v with
  | 0 => .ok (false, rest)
  | 1 => .ok (true, rest)
  | _ => .error (.custom "invalid bool value, must be 0 or 1")

/-- The extension record of the BSC UpgradeStatus message
(handshake.rs, `UpgradeStatusExtension`). -/
structure UpgradeStatusExtension where
  disable_peer_tx_broadcast : Bool
deriving DecidableEq, Repr

/-- The BSC UpgradeStatus handshake message (handshake.rs, `UpgradeStatus`). -/
structure UpgradeStatus where
  extension : UpgradeStatusExtension
deriving DecidableEq, Repr

/-- The message id for the upgrade status message
(handshake.rs, `UPGRADE_STATUS_MESSAGE_ID`). -/
def UPGRADE_STATUS_MESSAGE_ID : Nat := 0x0b

/-- `impl Encodable for u8` of alloy_rlp: zero encodes as the empty-string
code 0x80, a value below 0x80 as itself, any other byte as 0x81 followed by
the byte. -/
def u8Encode (x : Nat) : List Nat :=
  if x == 0 then [0x80]
  else if x < 0x80 then [x]
  else [0x81, x]

/-- `impl Encodable for bool` of alloy_rlp: one byte, 1 for true and the
empty-string code 0x80 for false. -/
def boolEncode (b : Bool) : List Nat :=
  [if b then 1 else 0x80]

/-- Derived `RlpEncodable` for `UpgradeStatusExtension`: a list header
(payload length 1, hence the single byte 0xC0 + 1) followed by the encoded
flag. -/
def upgradeStatusExtensionEncode (e : UpgradeStatusExtension) : List Nat :=
  (0xc0 + (boolEncode e.disable_peer_tx_broadcast).length) ::
    boolEncode e.disable_peer_tx_broadcast

/-- `impl Encodable for UpgradeStatus` (handshake.rs): the message id encoded
as a u8, then the encoded extension. -/
def upgradeStatusEncode (m : UpgradeStatus) : List Nat :=
  u8Encode UPGRADE_STATUS_MESSAGE_ID ++ upgradeStatusExtensionEncode m.extension

/-- Derived `RlpDecodable` for `UpgradeStatusExtension`: decode a header,
require a list, decode the flag from the payload, and require that exactly
the announced payload length was consumed. -/
def upgradeStatusExtensionDecode (buf : List Nat) :
    Except RlpErr (UpgradeStatusExtension × List Nat) := do
  let (h, b1) ← headerDecode buf
  if !h.isList then .error .unexpectedString
  else if b1.length < h.payloadLength then .error .inputTooShort
  else
    let (v, b2) ← boolDecode b1
    if b1.length - b2.length != h.payloadLength then .error .listLengthMismatch
    else .ok (⟨v⟩, b2)

/-- Outcome of a decoder that can also panic: `ok` with the remaining buffer,
a typed `err`, or `panicked` for the out-of-bounds `bytes::Buf::advance`. -/
inductive DecodeResult (α : Type) where
  | ok (val : α) (rest : List Nat)
  | err (e : RlpErr)
  | panicked
deriving DecidableEq, Repr

/-- `impl Decodable for UpgradeStatus` (handshake.rs): decode the message id
as a u8 and check it, then `buf.advance(1)` — which panics when the buffer is
already empty, and otherwise skips one byte — then decode the extension. -/
def upgradeStatusDecode (buf : List Nat) : DecodeResult UpgradeStatus :=
  match u8Decode buf with
  | .error e => .err e
  | .ok (message_id, rest) =>
    if message_id != UPGRADE_STATUS_MESSAGE_ID then
      .err (.custom "Invalid message ID")
    else
      match rest with
      | [] => .panicked
      | _ :: rest2 =>
        match upgradeStatusExtensionDecode rest2 with
        | .error e => .err e
        | .ok (ext, rest3) => .ok ⟨ext⟩ rest3

/-!
The handshake extension negotiator (`BscHandshake::upgrade_status`).
The negotiated base-handshake status is modelled by its protocol version
together with an opaque representative of the remaining negotiated fields,
which `upgrade_status` never inspects. The single inbound event awaited from
the peer is either a message, a stream error, or end of stream.
-/

/-- The negotiated base-handshake result (`reth` `UnifiedStatus`), modelled by
the protocol version (as a number: Eth66 is 66, Eth67 is 67, ...) and an
opaque representative of the remaining fields. -/
structure UnifiedStatus where
  version : Nat
  rest : Nat
deriving DecidableEq, Repr

/-- Disconnect reasons used by `upgrade_status`. -/
inductive DisconnectReason where
  | disconnectRequested
  | protocolBreach
deriving DecidableEq, Repr

/-- The stream errors `upgrade_status` can return. -/
inductive EthStreamErr where
  | streamErr
  | noResponse
  | nonStatusMessageInHandshake
deriving DecidableEq, Repr

/-- The one inbound event `upgrade_status` awaits: `Some(Ok(msg))`,
`Some(Err(e))`, or `None` (stream ended). -/
inductive InboundEvent where
  | message (bytes : List Nat)
  | streamError
  | streamEnd
deriving DecidableEq, Repr

instance {ε α : Type} [DecidableEq ε] [DecidableEq α] : DecidableEq (Except ε α) :=
  fun a b =>
    match a, b with
    | .error e, .error f =>
      if h : e = f then .isTrue (by rw [h]) else .isFalse (by intro hc; cases hc; exact h rfl)
    | .ok x, .ok y =>
      if h : x = y then .isTrue (by rw [h]) else .isFalse (by intro hc; cases hc; exact h rfl)
    | .error _, .ok _ => .isFalse (by intro hc; cases hc)
    | .ok _, .error _ => .isFalse (by intro hc; cases hc)

/-- Observable outcome of `upgrade_status`: the messages sent on the stream,
the disconnect sent (if any), and the returned result. -/
structure HandshakeOutcome where
  sent : List (List Nat)
  disconnect : Option DisconnectReason
  result : Except EthStreamErr UnifiedStatus
deriving DecidableEq, Repr

/-- `BscHandshake::upgrade_status` (handshake.rs): above version Eth66, send
the local UpgradeStatus message (broadcast allowed), await one inbound event,
and on a message decode it as UpgradeStatus — success returns the negotiated
status unchanged, a decode error disconnects with ProtocolBreach and fails
with NonStatusMessageInHandshake. At or below Eth66 the negotiated status is
returned unchanged with no traffic. `none` stands for a panic inside the
decoder. -/
def upgrade_status (negotiated_status : UnifiedStatus) (inbound : InboundEvent) :
    Option HandshakeOutcome :=
  if 66 < negotiated_status.version then
    let upgrade_msg := upgradeStatusEncode ⟨⟨false⟩⟩
    match inbound with
    | .streamError =>
      some ⟨[upgrade_msg], none, .error .streamErr⟩
    | .streamEnd =>
      some ⟨[upgrade_msg], some .disconnectRequested, .error .noResponse⟩
    | .message bytes =>
      match upgradeStatusDecode bytes with
      | .ok _ _ => some ⟨[upgrade_msg], none, .ok negotiated_status⟩
      | .err _ => some ⟨[upgrade_msg], some .protocolBreach,
          .error .nonStatusMessageInHandshake⟩
      | .panicked => none
  else
    some ⟨[], none, .ok negotiated_status⟩

/-!
The block synchronization tracker (`BlockStateManager`, blockstate.rs).
Peer ids are numbers; the `HashMap<u64, bool>` of pending requests is an
association list with distinct keys maintained by the HashMap operations;
the `HashSet<u64>` of received blocks is a list queried by membership.
Operations that send requests on the network handle return the list of
(peer, request) pairs they sent.
-/

/-- A peer identifier. -/
abbrev PeerId : Type := Nat

/-- The direction field of a GetBlockHeaders request. -/
inductive HeadersDirection where
  | rising
  | falling
deriving DecidableEq, Repr

/-- The `GetBlockHeaders` request shape built by `request_block_by_number`. -/
structure GetBlockHeaders where
  start_block : Nat
  limit : Nat
  skip : Nat
  direction : HeadersDirection
deriving DecidableEq, Repr

/-- `HashMap::contains_key` on the association-list model. -/
def hmContainsKey (m : List (Nat × Bool)) (k : Nat) : Bool :=
  m.any (fun e => e.1 == k)

/-- `HashMap::insert` on the association-list model: replace the value when
the key is present, append otherwise. -/
def hmInsert (m : List (Nat × Bool)) (k : Nat) (v : Bool) : List (Nat × Bool) :=
  if hmContainsKey m k then
    m.map (fun e => if e.1 == k then (k, v) else e)
  else m ++ [(k, v)]

/-- `HashMap::remove` on the association-list model. -/
def hmRemove (m : List (Nat × Bool)) (k : Nat) : List (Nat × Bool) :=
  m.filter (fun e => !(e.1 == k))

/-- The state of `BlockStateManager` (blockstate.rs): current height, peer
set, pending block requests, received blocks. -/
structure BlockStateManager where
  current_height : Nat
  peerset : List PeerId
  pending_requests : List (Nat × Bool)
  received_blocks : List Nat
deriving DecidableEq, Repr

/-- `BlockStateManager::new`. -/
def BlockStateManager.new (starting_height : Nat) : BlockStateManager :=
  ⟨starting_height, [], [], []⟩

/-- `BlockStateManager::get_current_height`. -/
def BlockStateManager.get_current_height (s : BlockStateManager) : Nat :=
  s.current_height

/-- `BlockStateManager::update_height`: advance the height iff the new value
is strictly greater; return whether it advanced. -/
def BlockStateManager.update_height (s : BlockStateManager) (new_height : Nat) :
    BlockStateManager × Bool :=
  if s.current_height < new_height then
    ({ s with current_height := new_height }, true)
  else (s, false)

/-- `BlockStateManager::add_received_block`. -/
def BlockStateManager.add_received_block (s : BlockStateManager)
    (block_number : Nat) : BlockStateManager :=
  { s with received_blocks := s.received_blocks.insert block_number }

/-- `BlockStateManager::is_block_received`. -/
def BlockStateManager.is_block_received (s : BlockStateManager)
    (block_number : Nat) : Bool :=
  s.received_blocks.contains block_number

/-- `BlockStateManager::request_block_by_number` (blockstate.rs lines
91-125): if a peer is available (the first of the peer set), then — unless
the number is already pending — mark it pending and send one GetBlockHeaders
request (start at that number, limit 1, skip 0, rising) to that peer. With
no peer, or with the number already pending, nothing is sent. Returns the new
state and the requests sent. -/
def BlockStateManager.request_block_by_number (s : BlockStateManager)
    (block_number : Nat) : BlockStateManager × List (PeerId × GetBlockHeaders) :=
  match s.peerset.head? with
  | some peer_id =>
    if hmContainsKey s.pending_requests block_number then (s, [])
    else
      ({ s with pending_requests := hmInsert s.pending_requests block_number true },
        [(peer_id, ⟨block_number, 1, 0, .rising⟩)])
  | none => (s, [])

/-- `BlockStateManager::request_next_block`. -/
def BlockStateManager.request_next_block (s : BlockStateManager) :
    BlockStateManager × List (PeerId × GetBlockHeaders) :=
  s.request_block_by_number (s.get_current_height + 1)

/-- The body of the `for missing_block in start..end` loop of
`check_and_request_missing_blocks`, over the explicit list of loop indices:
for each number not yet received, invoke `request_block_by_number`. Returns
the final state, the requests sent, and the numbers for which
`request_block_by_number` was invoked. -/
def gapLoop (s : BlockStateManager) :
    List Nat → BlockStateManager × List (PeerId × GetBlockHeaders) × List Nat
  | [] => (s, [], [])
  | n :: ns =>
    if s.is_block_received n then gapLoop s ns
    else
      let r := s.request_block_by_number n
      let rest := gapLoop r.1 ns
      (rest.1, r.2 ++ rest.2.1, n :: rest.2.2)

/-- `BlockStateManager::check_and_request_missing_blocks` (blockstate.rs
lines 133-157): when the received block number exceeds current height + 1,
iterate over `start..end` with `start = current_height + 1` and
`end = min(start + 5, received_block_number)`, requesting each number not yet
received. Returns the final state, the requests sent, and the numbers for
which `request_block_by_number` was invoked. -/
def BlockStateManager.check_and_request_missing_blocks (s : BlockStateManager)
    (received_block_number : Nat) :
    BlockStateManager × List (PeerId × GetBlockHeaders) × List Nat :=
  if s.get_current_height + 1 < received_block_number then
    let start := s.get_current_height + 1
    let stop := min (start + 5) received_block_number
    gapLoop s (List.range' start (stop - start))
  else (s, [], [])

/-- `BlockStateManager::process_received_block`: drop the pending entry for
the number and record it as received. -/
def BlockStateManager.process_received_block (s : BlockStateManager)
    (block_number : Nat) : BlockStateManager :=
  let s1 := { s with pending_requests := hmRemove s.pending_requests block_number }
  s1.add_received_block block_number

/-- `BlockStateManager::cleanup_expired_requests` (blockstate.rs lines
206-217): when strictly more than 100 requests are pending, retain only the
entries whose block number exceeds `current_height.saturating_sub(50)`
(natural-number subtraction is saturating). -/
def BlockStateManager.cleanup_expired_requests (s : BlockStateManager) :
    BlockStateManager :=
  if 100 < s.pending_requests.length then
    { s with pending_requests :=
        s.pending_requests.filter (fun e => s.current_height - 50 < e.1) }
  else s

/-- Folding a finite sequence of `update_height` calls over the tracker
state (the result of each call's state is fed to the next). -/
def heightAfter (s : BlockStateManager) (ns : List Nat) : BlockStateManager :=
  ns.foldl (fun st n => (st.update_height n).1) s

/-- Spec-side definition (from the spec's words, for comparison with the
code): the arguments of a sequence of `update_height` calls that exceeded
the height current at their call. -/
def specQualifyingArgs (h : Nat) : List Nat → List Nat
  | [] => []
  | n :: ns => if h < n then n :: specQualifyingArgs n ns else specQualifyingArgs h ns

/-!
Theorems. Helper lemmas come first, then one theorem per claim (with a
witness or counterexample where called for).
-/

/-- After inserting a key, the map contains it. -/
theorem hmContainsKey_hmInsert_self (m : List (Nat × Bool)) (k : Nat) (v : Bool) :
    hmContainsKey (hmInsert m k v) k = true := by
  unfold hmInsert
  by_cases h : hmContainsKey m k
  · rw [if_pos h]
    unfold hmContainsKey at h ⊢
    obtain ⟨e, hem, hek⟩ := List.any_eq_true.mp h
    refine List.any_eq_true.mpr ⟨(k, v), List.mem_map.mpr ⟨e, hem, ?_⟩, by simp⟩
    simp [hek]
  · rw [if_neg h]
    unfold hmContainsKey
    simp [List.any_append]

/-- `request_block_by_number` leaves the peer set unchanged. -/
theorem request_block_by_number_peerset (s : BlockStateManager) (n : Nat) :
    (s.request_block_by_number n).1.peerset = s.peerset := by
  unfold BlockStateManager.request_block_by_number
  cases s.peerset.head? with
  | none => rfl
  | some p =>
    dsimp only
    split <;> rfl

/-- `request_block_by_number` leaves the received-block set unchanged. -/
theorem request_block_by_number_received (s : BlockStateManager) (n : Nat) :
    (s.request_block_by_number n).1.received_blocks = s.received_blocks := by
  unfold BlockStateManager.request_block_by_number
  cases s.peerset.head? with
  | none => rfl
  | some p =>
    dsimp only
    split <;> rfl

/-- The gap-fill loop invokes `request_block_by_number` exactly on the loop
indices that are not yet received. -/
theorem gapLoop_calls (ns : List Nat) (s : BlockStateManager) :
    (gapLoop s ns).2.2 = ns.filter (fun n => !(s.is_block_received n)) := by
  induction ns generalizing s with
  | nil => rfl
  | cons n ns ih =>
    unfold gapLoop
    by_cases h : s.is_block_received n
    · simp [h, ih s]
    · simp only [h, Bool.false_eq_true, if_false, List.filter_cons, Bool.not_false,
        if_true]
      rw [ih]
      have hrec : ((s.request_block_by_number n).1).received_blocks = s.received_blocks :=
        request_block_by_number_received s n
      simp [BlockStateManager.is_block_received, hrec, h]

/-- The state component of one `update_height` call has the expected height. -/
theorem update_height_current (s : BlockStateManager) (n : Nat) :
    (s.update_height n).1.current_height =
      (if s.current_height < n then n else s.current_height) := by
  unfold BlockStateManager.update_height
  split <;> rfl

/-- The height after a sequence of `update_height` calls is the fold of the
pointwise step over the arguments. -/
theorem heightAfter_foldl (ns : List Nat) (s : BlockStateManager) :
    (heightAfter s ns).current_height =
      ns.foldl (fun h n => if h < n then n else h) s.current_height := by
  induction ns generalizing s with
  | nil => rfl
  | cons n ns ih =>
    unfold heightAfter at ih ⊢
    rw [List.foldl_cons, List.foldl_cons, ih, update_height_current]

/-- The pointwise maximum fold equals the maximum of the start value and the
qualifying arguments. -/
theorem foldl_step_eq_qualifying (ns : List Nat) (h : Nat) :
    ns.foldl (fun a n => if a < n then n else a) h =
      (specQualifyingArgs h ns).foldl max h := by
  induction ns generalizing h with
  | nil => rfl
  | cons n ns ih =>
    by_cases hn : h < n
    · simp only [List.foldl_cons, specQualifyingArgs, if_pos hn]
      rw [ih n]
      congr 1
      exact (max_eq_right (Nat.le_of_lt hn)).symm
    · simp only [List.foldl_cons, specQualifyingArgs, if_neg hn]
      exact ih h

/-- C1: the claim says `UpgradeStatus::decode` terminates without panicking on
every byte sequence, returning `Ok` or a typed error. The code violates this:
on the single byte 0x0b (a well-formed message id with nothing after it),
`u8::decode` consumes the byte and the subsequent `buf.advance(1)` runs past
the end of the empty buffer, which panics. This theorem evaluates the
embedded decoder at that input and shows it reaches the panicking branch. -/
theorem upgradeStatusDecode_panics_on_tag_only :
    upgradeStatusDecode [0x0b] = .panicked := rfl

/-- C2: the claim says `decode(encode(x)) == x` for every extension value.
The code violates this for every value: encoding yields the message id byte,
the extension list header 0xC1, and the flag byte, but `decode` consumes the
id via `u8::decode` and then advances one extra byte, skipping the list
header, so the extension decoder sees a string item and fails with
UnexpectedString. -/
theorem upgradeStatus_roundtrip_fails (m : UpgradeStatus) :
    upgradeStatusDecode (upgradeStatusEncode m) = .err .unexpectedString := by
  obtain ⟨⟨b⟩⟩ := m
  cases b <;> rfl

/-- C3: during extension negotiation (negotiated version above Eth66), for
every inbound peer message whose bytes fail to decode as the extension
message (a typed decode error, which includes bytes shorter than the tag),
`upgrade_status` sends a disconnect with reason protocol breach and returns
the NonStatusMessageInHandshake (UnexpectedMessage) error, never Ok. -/
theorem upgrade_status_decode_error_breach (st : UnifiedStatus) (bytes : List Nat)
    (e : RlpErr) (hv : 66 < st.version)
    (hd : upgradeStatusDecode bytes = .err e) :
    upgrade_status st (.message bytes) =
      some ⟨[upgradeStatusEncode ⟨⟨false⟩⟩], some .protocolBreach,
        .error .nonStatusMessageInHandshake⟩ := by
  unfold upgrade_status
  rw [if_pos hv]
  dsimp only
  rw [hd]

/-- Witness for C3 at a concrete input: version Eth67 and the empty inbound
message (truncated below the tag byte), whose decode fails with
InputTooShort. -/
theorem upgrade_status_decode_error_breach_witness :
    upgrade_status ⟨67, 0⟩ (.message []) =
      some ⟨[upgradeStatusEncode ⟨⟨false⟩⟩], some .protocolBreach,
        .error .nonStatusMessageInHandshake⟩ :=
  upgrade_status_decode_error_breach ⟨67, 0⟩ [] .inputTooShort (by decide) rfl

/-- C9: for every negotiated status whose protocol version is at most Eth66,
`upgrade_status` sends no extension message, performs no disconnect, and
returns the negotiated status unchanged, whatever the peer would have sent. -/
theorem upgrade_status_legacy_passthrough (st : UnifiedStatus)
    (inbound : InboundEvent) (hv : st.version ≤ 66) :
    upgrade_status st inbound = some ⟨[], none, .ok st⟩ := by
  unfold upgrade_status
  rw [if_neg (by omega)]

/-- Witness for C9 at a concrete input: version Eth66 with the stream ending;
nothing is sent and the negotiated status comes back unchanged. -/
theorem upgrade_status_legacy_passthrough_witness :
    upgrade_status ⟨66, 3⟩ .streamEnd = some ⟨[], none, .ok ⟨66, 3⟩⟩ :=
  upgrade_status_legacy_passthrough ⟨66, 3⟩ .streamEnd (by decide)

/-- C4 counterexample: the claim says `request_block_by_number` with block
number 0 issues no outbound request and never inserts key 0 into the pending
map, for every tracker state. The code has no such check: with one connected
peer and nothing pending, requesting block 0 inserts key 0 and sends one
GetBlockHeaders request for block 0. -/
theorem request_block_zero_counterexample :
    BlockStateManager.request_block_by_number ⟨5, [7], [], []⟩ 0 =
      (⟨5, [7], [(0, true)], []⟩, [(7, ⟨0, 1, 0, .rising⟩)]) := rfl

/-- C4 (amended): block number 0 receives no special treatment. Whenever a
peer is connected and 0 is not already pending, `request_block_by_number 0`
inserts key 0 into the pending map and issues exactly one outbound request
for block 0 to the first peer; only the no-peer and already-pending checks
can suppress it. -/
theorem request_block_zero_amended (s : BlockStateManager) (p : PeerId)
    (hp : s.peerset.head? = some p)
    (hpend : hmContainsKey s.pending_requests 0 = false) :
    s.request_block_by_number 0 =
      ({ s with pending_requests := s.pending_requests ++ [(0, true)] },
        [(p, ⟨0, 1, 0, .rising⟩)]) := by
  unfold BlockStateManager.request_block_by_number
  rw [hp]
  dsimp only
  rw [if_neg (by simp [hpend]), hmInsert, if_neg (by simp [hpend])]

/-- Witness for the amended C4 at a concrete state: peers [9, 4], block 3
pending, height 5. -/
theorem request_block_zero_amended_witness :
    BlockStateManager.request_block_by_number ⟨5, [9, 4], [(3, true)], []⟩ 0 =
      (⟨5, [9, 4], [(3, true), (0, true)], []⟩, [(9, ⟨0, 1, 0, .rising⟩)]) :=
  request_block_zero_amended ⟨5, [9, 4], [(3, true)], []⟩ 9 rfl (by decide)

/-- C5: with at least one connected peer, calling `request_block_by_number n`
twice in a row issues at most one outbound request for n in total — the
second call finds n pending and is a complete no-op (same state, no
request). -/
theorem request_block_at_most_once (s : BlockStateManager) (n : Nat)
    (h : s.peerset ≠ []) :
    ((s.request_block_by_number n).1).request_block_by_number n =
        ((s.request_block_by_number n).1, [])
    ∧ ((s.request_block_by_number n).2).length ≤ 1 := by
  obtain ⟨p, ps, hps⟩ : ∃ p ps, s.peerset = p :: ps := by
    cases hc : s.peerset with
    | nil => exact absurd hc h
    | cons p ps => exact ⟨p, ps, rfl⟩
  have hhead : s.peerset.head? = some p := by rw [hps]; rfl
  by_cases hc : hmContainsKey s.pending_requests n
  · have h1 : s.request_block_by_number n = (s, []) := by
      unfold BlockStateManager.request_block_by_number
      rw [hhead]
      dsimp only
      rw [if_pos hc]
    rw [h1]
    exact ⟨h1, by simp⟩
  · have h1 : s.request_block_by_number n =
        ({ s with pending_requests := hmInsert s.pending_requests n true },
          [(p, ⟨n, 1, 0, .rising⟩)]) := by
      unfold BlockStateManager.request_block_by_number
      rw [hhead]
      dsimp only
      rw [if_neg (by simp [hc])]
    rw [h1]
    refine ⟨?_, by simp⟩
    unfold BlockStateManager.request_block_by_number
    dsimp only
    rw [hhead]
    dsimp only
    rw [if_pos (hmContainsKey_hmInsert_self s.pending_requests n true)]

/-- Witness for C5 at a concrete state: one peer, empty pending map,
requesting block 42 twice. -/
theorem request_block_at_most_once_witness :
    ((BlockStateManager.request_block_by_number ⟨5, [7], [], []⟩ 42).1).request_block_by_number 42 =
        ((BlockStateManager.request_block_by_number ⟨5, [7], [], []⟩ 42).1, [])
    ∧ ((BlockStateManager.request_block_by_number ⟨5, [7], [], []⟩ 42).2).length ≤ 1 :=
  request_block_at_most_once ⟨5, [7], [], []⟩ 42 (by decide)

/-- C6: `update_height new` returns true and sets the height to new iff
new exceeds the height at call time, otherwise returns false and leaves the
state unchanged; consequently, after any finite sequence of calls the height
equals the maximum of the initial height and every argument that exceeded
the height current at its call. -/
theorem update_height_monotonic_spec (s : BlockStateManager) (n : Nat)
    (ns : List Nat) :
    ((s.update_height n).2 = true ↔ s.current_height < n)
    ∧ (s.update_height n).1.current_height =
        (if s.current_height < n then n else s.current_height)
    ∧ ((s.update_height n).2 = false → (s.update_height n).1 = s)
    ∧ (heightAfter s ns).current_height =
        (specQualifyingArgs s.current_height ns).foldl max s.current_height := by
  refine ⟨?_, update_height_current s n, ?_, ?_⟩
  · unfold BlockStateManager.update_height
    split <;> simp_all
  · unfold BlockStateManager.update_height
    split <;> simp_all
  · rw [heightAfter_foldl, foldl_step_eq_qualifying]

/-- Witness for C6 at a concrete state: height 10; the call with 5 does not
advance and leaves the state unchanged, and the sequence [12, 11, 20, 3]
ends at height 20 (the maximum of 10 and the qualifying arguments 12 and
20). -/
theorem update_height_monotonic_spec_witness :
    (BlockStateManager.update_height ⟨10, [], [], []⟩ 5).1 = ⟨10, [], [], []⟩
    ∧ (heightAfter ⟨10, [], [], []⟩ [12, 11, 20, 3]).current_height = 20 :=
  ⟨(update_height_monotonic_spec ⟨10, [], [], []⟩ 5 []).2.2.1 (by decide),
    ((update_height_monotonic_spec ⟨10, [], [], []⟩ 5 [12, 11, 20, 3]).2.2.2).trans
      (by decide)⟩

/-- C7: `check_and_request_missing_blocks` acts only when the received number
exceeds current height + 1, and then invokes `request_block_by_number`
exactly for the numbers of the half-open window from height+1 to
min(height+1+5, received) that are not yet in the received-block set;
otherwise it is a complete no-op. -/
theorem check_and_request_missing_window (s : BlockStateManager)
    (received : Nat) :
    (received ≤ s.current_height + 1 →
      s.check_and_request_missing_blocks received = (s, [], []))
    ∧ (s.check_and_request_missing_blocks received).2.2 =
        (if s.current_height + 1 < received then
          (List.range' (s.current_height + 1)
            (min (s.current_height + 1 + 5) received - (s.current_height + 1))).filter
            (fun n => !(s.is_block_received n))
        else []) := by
  constructor
  · intro h
    unfold BlockStateManager.check_and_request_missing_blocks
    rw [if_neg]
    unfold BlockStateManager.get_current_height
    omega
  · unfold BlockStateManager.check_and_request_missing_blocks
      BlockStateManager.get_current_height
    by_cases h : s.current_height + 1 < received
    · rw [if_pos h, if_pos h]
      exact gapLoop_calls _ s
    · rw [if_neg h, if_neg h]

/-- Witness for C7 at concrete states: height 100 with received 101 is a
no-op, and height 100 with received 110 (a gap of 10) invokes requests for
exactly blocks 101 through 105. -/
theorem check_and_request_missing_window_witness :
    BlockStateManager.check_and_request_missing_blocks ⟨100, [7], [], []⟩ 101 =
        (⟨100, [7], [], []⟩, [], [])
    ∧ (BlockStateManager.check_and_request_missing_blocks ⟨100, [7], [], []⟩ 110).2.2 =
        [101, 102, 103, 104, 105] :=
  ⟨(check_and_request_missing_window ⟨100, [7], [], []⟩ 101).1 (by decide),
    ((check_and_request_missing_window ⟨100, [7], [], []⟩ 110).2).trans (by decide)⟩

/-- C8: `cleanup_expired_requests` is a no-op unless strictly more than 100
requests are pending; when exactly 101 are pending at current height H,
after the sweep precisely the entries with key greater than H - 50
(truncated subtraction) remain and every other entry is dropped. -/
theorem cleanup_sweep_spec (s : BlockStateManager) :
    (s.pending_requests.length ≤ 100 → s.cleanup_expired_requests = s)
    ∧ (s.pending_requests.length = 101 →
        (s.cleanup_expired_requests).pending_requests =
          s.pending_requests.filter (fun e => s.current_height - 50 < e.1)) := by
  constructor
  · intro h
    unfold BlockStateManager.cleanup_expired_requests
    rw [if_neg (by omega)]
  · intro h
    unfold BlockStateManager.cleanup_expired_requests
    rw [if_pos (by omega)]

/-- Witness for C8 at a concrete state: height 60 and 101 pending entries
with keys 0 through 100; the sweep keeps exactly the keys above 10. -/
theorem cleanup_sweep_spec_witness :
    (BlockStateManager.cleanup_expired_requests
        ⟨60, [], (List.range 101).map (fun k => (k, true)), []⟩).pending_requests =
      ((List.range 101).map (fun k => (k, true))).filter (fun e => 10 < e.1) :=
  (cleanup_sweep_spec ⟨60, [], (List.range 101).map (fun k => (k, true)), []⟩).2
    (by decide)

/-- C10: the staleness sweep computes its cutoff with saturating subtraction:
whenever it acts (more than 100 pending entries), exactly the entries with
key greater than max(current_height - 50, 0) (over the integers) are
retained; in particular, at every current height of at most 50, every pending
entry with key at least 1 survives the sweep. -/
theorem cleanup_saturating_cutoff (s : BlockStateManager) :
    (100 < s.pending_requests.length →
      (s.cleanup_expired_requests).pending_requests =
        s.pending_requests.filter
          (fun e => max ((s.current_height : Int) - 50) 0 < (e.1 : Int)))
    ∧ (s.current_height ≤ 50 → 100 < s.pending_requests.length →
        ∀ e ∈ s.pending_requests, 1 ≤ e.1 →
          e ∈ (s.cleanup_expired_requests).pending_requests) := by
  have key : ∀ k : Nat,
      (s.current_height - 50 < k) ↔ (max ((s.current_height : Int) - 50) 0 < (k : Int)) := by
    intro k
    rw [max_lt_iff]
    omega
  constructor
  · intro h
    unfold BlockStateManager.cleanup_expired_requests
    rw [if_pos h]
    exact List.filter_congr (fun e he => decide_eq_decide.mpr (key e.1))
  · intro h50 hlen e he h1
    unfold BlockStateManager.cleanup_expired_requests
    rw [if_pos hlen]
    refine List.mem_filter.mpr ⟨he, ?_⟩
    simp only [decide_eq_true_eq]
    omega

/-- Witness for C10 at a concrete state: height 30 (at most 50) with 101
pending entries keyed 1 through 101; the entry for block 2 survives the
sweep. -/
theorem cleanup_saturating_cutoff_witness :
    (2, true) ∈ (BlockStateManager.cleanup_expired_requests
        ⟨30, [], (List.range 101).map (fun k => (k + 1, true)), []⟩).pending_requests :=
  (cleanup_saturating_cutoff
      ⟨30, [], (List.range 101).map (fun k => (k + 1, true)), []⟩).2
    (by decide) (by decide) (2, true) (by decide) (by decide)
